import Mathlib

/-!
# Verification of the fast-app health subsystem and lifecycle orchestrator

Shallow embedding of the Go repository `katalabut/fast-app`:

* the health data model (`HealthStatus`, `HealthResult`, `ComponentImportance`)
  from the `health` package;
* the three aggregation strategies (`AllHealthyStrategy` in both the `health`
  and `strategies` packages, `MajorityHealthyStrategy`, `WeightedStrategy`);
* the health `Manager` (registration, result cache, `checkWithCache`);
* the HTTP readiness / detail handlers of `health/server` and of the
  `service.ObservabilityService`;
* the `checks.CustomCheck` containment wrapper and an execution model of
  `Manager.CheckAll` with panicking checkers;
* the orchestrator pieces of `app.go` and `options.go` (runner wrapper with
  panic recovery, stop-all-on-error policy, errgroup cancellation, watchdog).

Go maps are modelled as association lists; a list also fixes one iteration
order, which matters because Go map iteration order is unspecified.
Durations are natural numbers (seconds for the orchestrator constants,
abstract time units elsewhere).
-/

namespace FastApp

/-- `HealthStatus` from the `health` package: the closed enumeration of the
three status constants `StatusHealthy`, `StatusDegraded`, `StatusUnhealthy`.
In Go the carrier is `string`; only these three constants are ever produced,
so a closed inductive is used. -/
inductive HealthStatus where
  | healthy
  | degraded
  | unhealthy
deriving DecidableEq, Repr

/-- Go detail maps are `map[string]interface` values. The claims only inspect
detail keys, so values are modelled as strings. Assignment `hr.Details[key] = value`
replaces an existing key or appends a new binding. -/
def setDetail : List (String × String) → String → String → List (String × String)
  | [], k, v => [(k, v)]
  | (k', v') :: rest, k, v =>
    if k' = k then (k, v) :: rest else (k', v') :: setDetail rest k v

/-- True when the detail map carries the given key. -/
def hasDetailKey (details : List (String × String)) (key : String) : Bool :=
  details.any fun p => p.1 == key

/-- `HealthResult` from the `health` package: status, message, details map,
and the measured duration of the check. Note: the struct carries NO timestamp
of when it was produced. -/
structure HealthResult where
  status : HealthStatus
  message : String
  details : List (String × String)
  duration : Nat
deriving DecidableEq, Repr

/-- `health.NewHealthyResult`. -/
def NewHealthyResult (message : String) : HealthResult :=
  ⟨HealthStatus.healthy, message, [], 0⟩

/-- `health.NewUnhealthyResult`. -/
def NewUnhealthyResult (message : String) : HealthResult :=
  ⟨HealthStatus.unhealthy, message, [], 0⟩

/-- `health.NewDegradedResult`. -/
def NewDegradedResult (message : String) : HealthResult :=
  ⟨HealthStatus.degraded, message, [], 0⟩

/-- `HealthResult.WithDetails`. -/
def HealthResult.WithDetails (hr : HealthResult) (key value : String) : HealthResult :=
  { hr with details := setDetail hr.details key value }

/-- `HealthResult.WithDuration`. -/
def HealthResult.WithDuration (hr : HealthResult) (duration : Nat) : HealthResult :=
  { hr with duration := duration }

/-- `HealthResult.IsHealthy`. -/
def HealthResult.IsHealthy (hr : HealthResult) : Bool :=
  hr.status == HealthStatus.healthy

/-- `HealthResult.IsDegraded`. -/
def HealthResult.IsDegraded (hr : HealthResult) : Bool :=
  hr.status == HealthStatus.degraded

/-- `HealthResult.IsUnhealthy`. -/
def HealthResult.IsUnhealthy (hr : HealthResult) : Bool :=
  hr.status == HealthStatus.unhealthy

/-- `health.ComponentImportance`: `Optional < Important < Critical`. -/
inductive ComponentImportance where
  | Optional
  | Important
  | Critical
deriving DecidableEq, Repr

/-- Lookup in an association list modelling a Go map (keys are unique, so
first match is the binding). -/
def assocGet {α : Type} : List (String × α) → String → Option α
  | [], _ => none
  | (k', v) :: rest, k => if k' = k then some v else assocGet rest k

/-- Go map assignment `m[k] = v` on the association-list model: replace the
binding for `k` if present, else append it. -/
def assocUpd {α : Type} : List (String × α) → String → α → List (String × α)
  | [], k, v => [(k, v)]
  | (k', v') :: rest, k, v =>
    if k' = k then (k, v) :: rest else (k', v') :: assocUpd rest k v

/-! ## Aggregation strategies

A results map `map[string]HealthResult` is modelled as a
`List (String × HealthResult)` whose order is the (unspecified) Go map
iteration order of one particular run. -/

/-- The loop body of `strategies.AllHealthyStrategy.Aggregate`
(src/health/strategies/all_healthy.go lines 14-21): the Go code returns
`StatusUnhealthy` on the first unhealthy result and `StatusDegraded` on the
first degraded result, *inside* the loop. -/
def Strategies.allHealthyLoop : List (String × HealthResult) → HealthStatus
  | [] => HealthStatus.healthy
  | (_, result) :: rest =>
    if result.IsUnhealthy then HealthStatus.unhealthy
    else if result.IsDegraded then HealthStatus.degraded
    else Strategies.allHealthyLoop rest

/-- `strategies.AllHealthyStrategy.Aggregate` (src/health/strategies/all_healthy.go). -/
def Strategies.AllHealthyStrategy.Aggregate (results : List (String × HealthResult)) :
    HealthStatus :=
  if results.isEmpty then HealthStatus.healthy
  else Strategies.allHealthyLoop results

/-- The loop of the `health` package's `AllHealthyStrategy.Aggregate`
(src/unnamed/part_017 lines 133-154): it short-circuits only on unhealthy and
accumulates a `hasDegraded` flag, deciding degraded/healthy after the loop. -/
def Health.allHealthyLoop : List (String × HealthResult) → Bool → HealthStatus
  | [], hasDegraded => if hasDegraded then HealthStatus.degraded else HealthStatus.healthy
  | (_, result) :: rest, hasDegraded =>
    if result.IsUnhealthy then HealthStatus.unhealthy
    else Health.allHealthyLoop rest (hasDegraded || result.IsDegraded)

/-- `health.AllHealthyStrategy.Aggregate` (src/unnamed/part_017), the default
strategy installed by `health.NewManager`. -/
def Health.AllHealthyStrategy.Aggregate (results : List (String × HealthResult)) :
    HealthStatus :=
  if results.isEmpty then HealthStatus.healthy
  else Health.allHealthyLoop results false

/-- The counting loop of `strategies.MajorityHealthyStrategy.Aggregate`
(src/health/strategies/majority.go lines 14-27):
returns `(healthyCount, degradedCount, unhealthyCount)`. -/
def Strategies.tallyStatuses : List (String × HealthResult) → Nat × Nat × Nat
  | [] => (0, 0, 0)
  | (_, result) :: rest =>
    let t := Strategies.tallyStatuses rest
    match result.status with
    | HealthStatus.healthy => (t.1 + 1, t.2.1, t.2.2)
    | HealthStatus.degraded => (t.1, t.2.1 + 1, t.2.2)
    | HealthStatus.unhealthy => (t.1, t.2.1, t.2.2 + 1)

/-- `strategies.MajorityHealthyStrategy.Aggregate` (src/health/strategies/majority.go):
`majority = total/2 + 1`; unhealthy-majority wins, then healthy-majority,
else degraded; empty map is healthy. -/
def Strategies.MajorityHealthyStrategy.Aggregate (results : List (String × HealthResult)) :
    HealthStatus :=
  if results.isEmpty then HealthStatus.healthy
  else
    let t := Strategies.tallyStatuses results
    let total := results.length
    let majority := total / 2 + 1
    if t.2.2 ≥ majority then HealthStatus.unhealthy
    else if t.1 ≥ majority then HealthStatus.healthy
    else HealthStatus.degraded

/-- `strategies.WeightedStrategy` (src/unnamed/part_018): the externally
supplied importance map. -/
structure Strategies.WeightedStrategy where
  Weights : List (String × ComponentImportance)

/-- The importance lookup of `WeightedStrategy.Aggregate`: a name absent from
the map defaults to `Important`. -/
def Strategies.WeightedStrategy.importanceOf (s : Strategies.WeightedStrategy)
    (name : String) : ComponentImportance :=
  match assocGet s.Weights name with
  | some imp => imp
  | none => ComponentImportance.Important

/-- The flag-accumulating loop of `WeightedStrategy.Aggregate`
(src/unnamed/part_018 lines 304-321): returns
`(hasCriticalUnhealthy, hasImportantUnhealthy, hasDegraded)`. -/
def Strategies.weightedFlags (s : Strategies.WeightedStrategy) :
    List (String × HealthResult) → Bool × Bool × Bool
  | [] => (false, false, false)
  | (name, result) :: rest =>
    let f := Strategies.weightedFlags s rest
    match result.status, s.importanceOf name with
    | HealthStatus.unhealthy, ComponentImportance.Critical => (true, f.2.1, f.2.2)
    | HealthStatus.unhealthy, ComponentImportance.Important => (f.1, true, f.2.2)
    | HealthStatus.unhealthy, ComponentImportance.Optional => f
    | HealthStatus.degraded, _ => (f.1, f.2.1, true)
    | HealthStatus.healthy, _ => f

/-- `strategies.WeightedStrategy.Aggregate` (src/unnamed/part_018 lines 295-339). -/
def Strategies.WeightedStrategy.Aggregate (s : Strategies.WeightedStrategy)
    (results : List (String × HealthResult)) : HealthStatus :=
  if results.isEmpty then HealthStatus.healthy
  else
    let f := Strategies.weightedFlags s results
    if f.1 then HealthStatus.unhealthy
    else if f.2.1 then HealthStatus.degraded
    else if f.2.2 then HealthStatus.degraded
    else HealthStatus.healthy

/-! ## Health Manager state, registration and result cache (src/health/manager.go) -/

/-- A registered `HealthChecker` as the Manager's cache claims need it:
a stable `Name()` and the `HealthResult` its `Check` call would produce
(checkers are idempotent probes; mutation-free checkers such as the test
package's `mockChecker` return a fixed result). -/
structure Checker where
  name : String
  check : HealthResult
deriving DecidableEq, Repr

/-- One entry of the Manager's result cache. In Go the cache is
`map[string]HealthResult` and stores `HealthResult` only; `producedAt` is
ghost instrumentation recording the model time at which the entry was
stored, used solely to state age-based claims about the cache (the Go struct
has no such field, which is exactly why the code cannot compute an entry's
age). -/
structure CacheEntry where
  result : HealthResult
  producedAt : Nat
deriving DecidableEq, Repr

/-- The mutable state of `health.Manager`: the checker map, the result cache,
the cache TTL, and the readiness flag (locks are irrelevant to the sequential
claims and omitted). -/
structure Manager where
  checkers : List (String × Checker)
  cache : List (String × CacheEntry)
  cacheTTL : Nat
  ready : Bool
deriving DecidableEq, Repr

/-- `Manager.RegisterChecker` (src/health/manager.go lines 48-59): writes the
checker under its name (overwriting an existing binding, with only a log
line); it touches no other field — in particular the cache is untouched
(contrast `UnregisterChecker`, which deletes from both maps). -/
def Manager.RegisterChecker (m : Manager) (checker : Checker) : Manager :=
  { m with checkers := assocUpd m.checkers checker.name checker }

/-- `Manager.checkWithCache` (src/health/manager.go lines 111-127), evaluated
at model time `now`. The Go freshness test is
`time.Since(time.Now().Add(-cached.Duration)) < m.cacheTTL`; since
`time.Since(t)` is `time.Now().Sub(t)`, the tested quantity is
`cached.Duration` (plus the infinitesimal gap between the two `time.Now()`
reads), so the branch condition is `cached.Duration < cacheTTL` — it compares
the cached result's measured check duration with the TTL, not the entry's
age. On a miss the checker runs and its result is stored under the name.
Returns the result, the updated manager, and whether the checker was
invoked. -/
def Manager.checkWithCache (m : Manager) (now : Nat) (name : String) (checker : Checker) :
    HealthResult × Manager × Bool :=
  match assocGet m.cache name with
  | some cached =>
    if cached.result.duration < m.cacheTTL then
      (cached.result, m, false)
    else
      (checker.check, { m with cache := assocUpd m.cache name ⟨checker.check, now⟩ }, true)
  | none =>
    (checker.check, { m with cache := assocUpd m.cache name ⟨checker.check, now⟩ }, true)

/-! ## HTTP handlers (src/health/server/http.go and src/unnamed/part_016)

The handlers are modelled as pure functions of the values they read from the
Manager (`IsReady()`, `GetOverallStatus(ctx)`, `CheckAll(ctx)`); the
`timestamp` field and the JSON encoding are outside the model. -/

/-- The readiness response body fields (minus `timestamp`). -/
structure ReadinessResponse where
  status : HealthStatus
  ready : Bool
  managerReady : Bool
  overallStatus : HealthStatus
deriving DecidableEq, Repr

/-- `server.Server.handleReadiness` (src/health/server/http.go lines 98-125):
`ready := isReady && overallStatus != health.StatusUnhealthy`; HTTP 200 when
`ready`, else 503. -/
def Server.handleReadiness (isReady : Bool) (overall : HealthStatus) :
    ReadinessResponse × Nat :=
  let ready := isReady && !(overall == HealthStatus.unhealthy)
  (⟨overall, ready, isReady, overall⟩, if ready then 200 else 503)

/-- `service.ObservabilityService.handleReadiness` (src/unnamed/part_016
lines 146-169): the `ready` JSON field is
`ready && overallStatus == health.StatusHealthy`; the status code is 503 when
`!ready || overallStatus != health.StatusHealthy`, else 200. -/
def ObservabilityService.handleReadiness (isReady : Bool) (overall : HealthStatus) :
    ReadinessResponse × Nat :=
  let readyField := isReady && (overall == HealthStatus.healthy)
  let statusCode := if !isReady || !(overall == HealthStatus.healthy) then 503 else 200
  (⟨overall, readyField, isReady, overall⟩, statusCode)

/-- The detail (checks) response body fields (minus `timestamp`/`duration`). -/
structure ChecksResponse where
  status : HealthStatus
  checks : List (String × HealthResult)
  ready : Bool
deriving DecidableEq, Repr

/-- `server.Server.handleChecks` (src/health/server/http.go lines 128-160):
200 for Healthy, 200 for Degraded, 503 for Unhealthy. (The Go `default`
branch returning 500 is unreachable for the three status constants, which
are the only values the closed model enumerates.) -/
def Server.handleChecks (overall : HealthStatus) (results : List (String × HealthResult))
    (isReady : Bool) : ChecksResponse × Nat :=
  let statusCode :=
    match overall with
    | HealthStatus.healthy => 200
    | HealthStatus.degraded => 200
    | HealthStatus.unhealthy => 503
  (⟨overall, results, isReady⟩, statusCode)

/-- `service.ObservabilityService.handleHealthChecks` (src/unnamed/part_016
lines 172-195): 503 whenever `overallStatus != health.StatusHealthy`
(so also for Degraded), else 200. -/
def ObservabilityService.handleHealthChecks (overall : HealthStatus)
    (results : List (String × HealthResult)) (isReady : Bool) : ChecksResponse × Nat :=
  let statusCode := if !(overall == HealthStatus.healthy) then 503 else 200
  (⟨overall, results, isReady⟩, statusCode)

/-! ## Checker containment (src/health/checks/custom.go and src/unnamed/part_017)

The behaviour of a Go check function is abstracted as: it returns a result
after some elapsed time, it panics, or it never returns. -/

/-- Possible behaviours of a `CustomCheckFunc` invocation. -/
inductive CheckFnBehavior where
  | returnsAfter (result : HealthResult) (elapsed : Nat)
  | panics (value : String)
  | hangs
deriving DecidableEq, Repr

/-- `checks.CustomCheck` (src/health/checks/custom.go): name, wrapped check
function, timeout (default 30 in `NewCustomCheck`). -/
structure CustomCheck where
  name : String
  checkFn : CheckFnBehavior
  timeout : Nat
deriving DecidableEq, Repr

/-- `checks.NewCustomCheck`: wraps a check function with the default
30-second timeout. -/
def Checks.NewCustomCheck (name : String) (checkFn : CheckFnBehavior) : CustomCheck :=
  ⟨name, checkFn, 30⟩

/-- `checks.NewCustomCheckWithTimeout`. -/
def Checks.NewCustomCheckWithTimeout (name : String) (checkFn : CheckFnBehavior)
    (timeout : Nat) : CustomCheck :=
  ⟨name, checkFn, timeout⟩

/-- `checks.CustomCheck.Check` (src/health/checks/custom.go lines 44-77): the
check function runs in a worker goroutine with a deferred recover; the caller
selects between the single-slot result channel and the timeout context.
A panic is converted to `Unhealthy` with a `"panic"` detail; the function
finishing no earlier than the deadline (or never) yields `Unhealthy` with a
`"timeout"` detail. (The parent context is assumed to carry no earlier
deadline, so the `context.DeadlineExceeded` branch is the one taken.) -/
def CustomCheck.Check (c : CustomCheck) : HealthResult :=
  match c.checkFn with
  | CheckFnBehavior.returnsAfter result elapsed =>
    if elapsed < c.timeout then result
    else (NewUnhealthyResult "health check timeout").WithDetails "timeout" (toString c.timeout)
  | CheckFnBehavior.panics value =>
    (NewUnhealthyResult "panic during health check").WithDetails "panic" value
  | CheckFnBehavior.hangs =>
    (NewUnhealthyResult "health check timeout").WithDetails "timeout" (toString c.timeout)

/-- The outcome of invoking a `HealthChecker.Check` method: a result, an
uncontained panic, or no return. -/
inductive CheckOutcome where
  | normal (result : HealthResult)
  | panicked (value : String)
  | hung
deriving DecidableEq, Repr

/-- `health.customCheck.Check` (src/unnamed/part_017 lines 175-177): it calls
the wrapped function directly, with NO recover and NO timeout, so whatever
the function does escapes to the caller. -/
def Health.customCheckCheck (checkFn : CheckFnBehavior) : CheckOutcome :=
  match checkFn with
  | CheckFnBehavior.returnsAfter result _ => CheckOutcome.normal result
  | CheckFnBehavior.panics value => CheckOutcome.panicked value
  | CheckFnBehavior.hangs => CheckOutcome.hung

/-- First uncontained panic value among the checker outcomes, if any. -/
def firstPanicValue : List (String × CheckOutcome) → Option String
  | [] => none
  | (_, CheckOutcome.panicked v) :: _ => some v
  | _ :: rest => firstPanicValue rest

/-- Whether some checker invocation never returns. -/
def anyHung (outcomes : List (String × CheckOutcome)) : Bool :=
  outcomes.any fun p => p.2 == CheckOutcome.hung

/-- The results of the normally returning checkers, keyed by name. -/
def normalResults : List (String × CheckOutcome) → List (String × HealthResult)
  | [] => []
  | (name, CheckOutcome.normal r) :: rest => (name, r) :: normalResults rest
  | _ :: rest => normalResults rest

/-- Outcome of one `Manager.CheckAll` call. -/
inductive CheckAllOutcome where
  | ok (results : List (String × HealthResult))
  | crashed (value : String)
  | hung
deriving DecidableEq, Repr

/-- Execution model of `Manager.CheckAll` (src/health/manager.go lines
79-108) over the outcomes of the registered checkers' `Check` calls: each
checker runs in its own goroutine with NO deferred recover anywhere in the
manager, so an uncontained checker panic crashes the Go process (crashing
dominates); otherwise a checker that never returns blocks `wg.Wait()`
forever; otherwise every result is collected into the map. Caching is
bypassed here (an empty cache invokes every checker). -/
def runCheckers (outcomes : List (String × CheckOutcome)) : CheckAllOutcome :=
  match firstPanicValue outcomes with
  | some v => CheckAllOutcome.crashed v
  | none =>
    if anyHung outcomes then CheckAllOutcome.hung
    else CheckAllOutcome.ok (normalResults outcomes)

/-! ## Lifecycle orchestrator (src/app.go and src/options.go) -/

/-- `options` (src/options.go lines 9-16; the context and mux fields are
outside the model). -/
structure Options where
  version : String
  stopAllOnErr : Bool
  shutdownTimeout : Nat
deriving DecidableEq, Repr

/-- `defaultShutdownTimeout = time.Second * 5` (src/app.go line 28),
in seconds. -/
def defaultShutdownTimeout : Nat := 5

/-- `watchdogTimeout = defaultShutdownTimeout + time.Second*5`
(src/app.go line 29): a package-level constant, fixed at 10 seconds. -/
def watchdogTimeout : Nat := defaultShutdownTimeout + 5

/-- The option defaults set by `fastapp.New` (src/app.go lines 74-81). -/
def defaultOptions : Options :=
  ⟨"", true, defaultShutdownTimeout⟩

/-- `WithDisableStopAllOnErr` (src/options.go lines 48-57). -/
def WithDisableStopAllOnErr (o : Options) : Options :=
  { o with stopAllOnErr := false }

/-- `WithShutdownTimeout` (src/options.go lines 59-68). -/
def WithShutdownTimeout (timeout : Nat) (o : Options) : Options :=
  { o with shutdownTimeout := timeout }

/-- Behaviour of a service's `Run(ctx)` call. -/
inductive RunBehavior where
  | returnsNil
  | returnsCtxErr
  | returnsErr (e : String)
  | panics (value : String)
deriving DecidableEq, Repr

/-- The runner closure `App.Start` passes to `g.Go` for each service
(src/app.go lines 169-199): returns the error the closure hands to the
errgroup, paired with whether the closure itself called `cancel()` (which it
does only in the recover branch, and only when `stopAllOnErr` holds). A nil
return and an error equal to the cancelled context's error (`errors.Is(err,
ctx.Err())`, logged as graceful shutdown) both yield nil. -/
def runnerResult (stopAllOnErr : Bool) : RunBehavior → Option String × Bool
  | RunBehavior.returnsNil => (none, false)
  | RunBehavior.returnsCtxErr => (none, false)
  | RunBehavior.returnsErr e => (some e, false)
  | RunBehavior.panics value =>
    (some ("shutting down (panic): " ++ value), stopAllOnErr)

/-- Whether the shared context ends up cancelled once every listed service's
runner closure has returned, absent any external signal. Two mechanisms
cancel it: the explicit `cancel()` in the panic-recover branch, and —
independently — the errgroup itself: `errgroup.WithContext`
(golang.org/x/sync) cancels the derived context as soon as any function
passed to `g.Go` returns a non-nil error. -/
def sharedContextCancelled (o : Options) (services : List RunBehavior) : Bool :=
  services.any fun b =>
    (runnerResult o.stopAllOnErr b).2 || (runnerResult o.stopAllOnErr b).1.isSome

/-- How long the watchdog goroutine (src/app.go lines 211-226) sleeps after
the shared context is cancelled before calling `os.Exit`: the code executes
`time.Sleep(watchdogTimeout)` — the constant — and never consults the
configured `opts.shutdownTimeout`. -/
def watchdogSleep (_o : Options) : Nat := watchdogTimeout

/-! ## Claim C1 -/

/-- Claim C1 (code bug): `checkWithCache` is specified to return the cached
result exactly when the entry's age is below the TTL and to re-invoke the
checker after TTL expiry, but the code's freshness test compares the cached
result's check `Duration` against the TTL (the Go expression
`time.Since(time.Now().Add(-cached.Duration))` evaluates to
`cached.Duration`), and the cache stores no production time at all.
Concretely: with TTL 5, a cache entry for `"db"` produced at time 0 whose
result has duration 0, a call at time 100 — age 100, far past the TTL —
still returns the stale cached result and does not invoke the checker. -/
theorem checkWithCache_ignores_entry_age :
    ((Manager.mk [] [("db", CacheEntry.mk (NewHealthyResult "ok") 0)] 5 true).checkWithCache
        100 "db" (Checker.mk "db" (NewUnhealthyResult "down"))).1 = NewHealthyResult "ok" ∧
    ((Manager.mk [] [("db", CacheEntry.mk (NewHealthyResult "ok") 0)] 5 true).checkWithCache
        100 "db" (Checker.mk "db" (NewUnhealthyResult "down"))).2.2 = false ∧
    100 - (0 : Nat) ≥ 5 := by
  decide

/-! ## Claim C5 -/

/-- Claim C5 (code bug): a run returning nil does not, by itself, cancel the
shared context, and a panic with stop-all-on-error enabled does — but with
the policy disabled via `WithDisableStopAllOnErr`, the shared context is
STILL cancelled: the recover branch skips its explicit `cancel()` (second
conjunct), yet the runner closure returns a non-nil error (third conjunct)
and `errgroup.WithContext` cancels the derived context on any non-nil return
(first conjunct), contradicting the claimed and documented effect of the
option. -/
theorem stopAllOnErr_disabled_still_cancels :
    sharedContextCancelled (WithDisableStopAllOnErr defaultOptions)
      [RunBehavior.panics "boom"] = true ∧
    (runnerResult (WithDisableStopAllOnErr defaultOptions).stopAllOnErr
      (RunBehavior.panics "boom")).2 = false ∧
    (runnerResult (WithDisableStopAllOnErr defaultOptions).stopAllOnErr
      (RunBehavior.panics "boom")).1.isSome = true ∧
    sharedContextCancelled defaultOptions [RunBehavior.returnsNil] = false ∧
    sharedContextCancelled defaultOptions [RunBehavior.panics "boom"] = true := by
  decide

/-! ## Claim C6 -/

/-- Claim C6 (code bug): the watchdog is claimed to sleep the CONFIGURED
shutdown timeout plus a fixed margin, but `App.Start` sleeps the package
constant `watchdogTimeout = defaultShutdownTimeout + 5 = 10`, ignoring the
configured value: with `WithShutdownTimeout 20` the sleep is 10, not 25, and
with `WithShutdownTimeout 1` the process is killed only after 10 seconds,
violating the claimed `shutdownTimeout + fixedMargin = 6` bound. -/
theorem watchdog_uses_fixed_window :
    watchdogSleep (WithShutdownTimeout 20 defaultOptions) = 10 ∧
    (WithShutdownTimeout 20 defaultOptions).shutdownTimeout + 5 = 25 ∧
    watchdogSleep (WithShutdownTimeout 20 defaultOptions) ≠
      (WithShutdownTimeout 20 defaultOptions).shutdownTimeout + 5 ∧
    ¬ (watchdogSleep (WithShutdownTimeout 1 defaultOptions) ≤
        (WithShutdownTimeout 1 defaultOptions).shutdownTimeout + 5) := by
  decide

/-! ## Claim C2 -/

/-- Claim C2 counterexample: for the `health/server` readiness handler with
`IsReady() = true` and overall status Degraded, the `ready` JSON field is
true and the HTTP code is 200, although the claim requires `ready` to be
true exactly when the overall status is Healthy — which Degraded is not. -/
theorem serverReadiness_degraded_counterexample :
    (Server.handleReadiness true HealthStatus.degraded).1.ready = true ∧
    ¬ (true = true ∧ HealthStatus.degraded = HealthStatus.healthy) ∧
    (Server.handleReadiness true HealthStatus.degraded).2 = 200 := by
  decide

/-- Claim C2 amended: the observability readiness handler computes the
`ready` field as IsReady AND overall = Healthy and returns 200 exactly when
that field is true; the `health/server` readiness handler computes `ready`
as IsReady AND overall ≠ Unhealthy (so Degraded still counts as ready) and
returns 200 exactly when its `ready` field is true; both return 503
otherwise — hence SetReady(false) yields 503 from both even when all checks
are Healthy, and one Unhealthy check forces `ready` false in both. -/
theorem readiness_endpoints_semantics :
    ∀ (isReady : Bool) (overall : HealthStatus),
      ((ObservabilityService.handleReadiness isReady overall).1.ready = true ↔
        (isReady = true ∧ overall = HealthStatus.healthy)) ∧
      ((ObservabilityService.handleReadiness isReady overall).2 = 200 ↔
        (ObservabilityService.handleReadiness isReady overall).1.ready = true) ∧
      ((ObservabilityService.handleReadiness isReady overall).2 = 200 ∨
        (ObservabilityService.handleReadiness isReady overall).2 = 503) ∧
      ((Server.handleReadiness isReady overall).1.ready = true ↔
        (isReady = true ∧ overall ≠ HealthStatus.unhealthy)) ∧
      ((Server.handleReadiness isReady overall).2 = 200 ↔
        (Server.handleReadiness isReady overall).1.ready = true) ∧
      ((Server.handleReadiness isReady overall).2 = 200 ∨
        (Server.handleReadiness isReady overall).2 = 503) := by
  intro isReady overall
  cases isReady <;> cases overall <;> decide

/-- Witness for the amended C2 theorem at `isReady = true`,
`overall = Healthy`. -/
theorem readiness_endpoints_semantics_witness :
    (Server.handleReadiness true HealthStatus.healthy).1.ready = true :=
  ((readiness_endpoints_semantics true HealthStatus.healthy).2.2.2.1).mpr
    ⟨rfl, by decide⟩

/-! ## Claim C7 -/

/-- Claim C7 counterexample: the observability detail handler returns 503,
not the claimed 200, when the overall status is Degraded. -/
theorem obsChecks_degraded_counterexample :
    (ObservabilityService.handleHealthChecks HealthStatus.degraded [] true).2 = 503 ∧
    (503 : Nat) ≠ 200 := by
  decide

/-- Claim C7 amended: the `health/server` detail handler returns 200 exactly
for Healthy and Degraded and 503 exactly for Unhealthy, while the
observability detail handler returns 200 exactly for Healthy and 503 for
both Degraded and Unhealthy; both respond with a body carrying the overall
status and the per-check results map. -/
theorem checks_endpoints_semantics :
    ∀ (overall : HealthStatus) (results : List (String × HealthResult)) (isReady : Bool),
      ((Server.handleChecks overall results isReady).2 = 200 ↔
        (overall = HealthStatus.healthy ∨ overall = HealthStatus.degraded)) ∧
      ((Server.handleChecks overall results isReady).2 = 503 ↔
        overall = HealthStatus.unhealthy) ∧
      (Server.handleChecks overall results isReady).1.status = overall ∧
      (Server.handleChecks overall results isReady).1.checks = results ∧
      ((ObservabilityService.handleHealthChecks overall results isReady).2 = 200 ↔
        overall = HealthStatus.healthy) ∧
      ((ObservabilityService.handleHealthChecks overall results isReady).2 = 503 ↔
        (overall = HealthStatus.degraded ∨ overall = HealthStatus.unhealthy)) ∧
      (ObservabilityService.handleHealthChecks overall results isReady).1.status = overall ∧
      (ObservabilityService.handleHealthChecks overall results isReady).1.checks = results := by
  intro overall results isReady
  cases overall <;>
    simp [Server.handleChecks, ObservabilityService.handleHealthChecks]

/-- Witness for the amended C7 theorem at `overall = Degraded`. -/
theorem checks_endpoints_semantics_witness :
    (Server.handleChecks HealthStatus.degraded [] true).2 = 200 :=
  ((checks_endpoints_semantics HealthStatus.degraded [] true).1).mpr (Or.inr rfl)

/-! ## Claim C3 -/

/-- Claim C3 counterexample: the `strategies` package's
`AllHealthyStrategy.Aggregate` returns Degraded — not the claimed
Unhealthy — on a results map containing one Degraded and one Unhealthy
entry when map iteration visits the Degraded entry first, because the loop
returns Degraded immediately. -/
theorem strategiesAllHealthy_order_counterexample :
    Strategies.AllHealthyStrategy.Aggregate
      [("a", NewDegradedResult "slow"), ("b", NewUnhealthyResult "down")] =
      HealthStatus.degraded ∧
    HealthStatus.degraded ≠ HealthStatus.unhealthy := by
  decide

/-- If some entry of the list is unhealthy, the `health`-package loop yields
unhealthy whatever the accumulated degraded flag is. -/
theorem health_allHealthyLoop_unhealthy :
    ∀ (l : List (String × HealthResult)) (b : Bool),
      (∃ p ∈ l, p.2.status = HealthStatus.unhealthy) →
      Health.allHealthyLoop l b = HealthStatus.unhealthy := by
  intro l
  induction l with
  | nil => intro b h; simp at h
  | cons hd tl ih =>
    intro b h
    obtain ⟨n, r⟩ := hd
    by_cases hu : r.IsUnhealthy
    · simp [Health.allHealthyLoop, hu]
    · have htl : ∃ p ∈ tl, p.2.status = HealthStatus.unhealthy := by
        obtain ⟨p, hp, hs⟩ := h
        rcases List.mem_cons.mp hp with he | ht
        · exfalso
          subst he
          exact hu (by simp [HealthResult.IsUnhealthy, show r.status = HealthStatus.unhealthy from hs])
        · exact ⟨p, ht, hs⟩
      simp [Health.allHealthyLoop, hu, ih _ htl]

/-- On a list with no unhealthy entry, the `health`-package loop yields
degraded exactly when the accumulator is set or some entry is degraded. -/
theorem health_allHealthyLoop_no_unhealthy :
    ∀ (l : List (String × HealthResult)) (b : Bool),
      (∀ p ∈ l, p.2.status ≠ HealthStatus.unhealthy) →
      Health.allHealthyLoop l b =
        (if (b || l.any fun p => p.2.IsDegraded) then HealthStatus.degraded
         else HealthStatus.healthy) := by
  intro l
  induction l with
  | nil => intro b _; simp [Health.allHealthyLoop]
  | cons hd tl ih =>
    intro b h
    obtain ⟨n, r⟩ := hd
    have hr : r.status ≠ HealthStatus.unhealthy := h (n, r) (List.mem_cons_self _ _)
    have hu : r.IsUnhealthy = false := by
      simp [HealthResult.IsUnhealthy]
      exact hr
    simp only [Health.allHealthyLoop, hu, Bool.false_eq_true, if_false]
    rw [ih (b || r.IsDegraded) (fun p hp => h p (List.mem_cons_of_mem _ hp))]
    simp only [List.any_cons, Bool.or_assoc]

/-- On a list with no unhealthy entry, the `strategies`-package loop yields
degraded exactly when some entry is degraded. -/
theorem strategies_allHealthyLoop_no_unhealthy :
    ∀ l : List (String × HealthResult),
      (∀ p ∈ l, p.2.status ≠ HealthStatus.unhealthy) →
      Strategies.allHealthyLoop l =
        (if (l.any fun p => p.2.IsDegraded) then HealthStatus.degraded
         else HealthStatus.healthy) := by
  intro l
  induction l with
  | nil => intro _; simp [Strategies.allHealthyLoop]
  | cons hd tl ih =>
    intro h
    obtain ⟨n, r⟩ := hd
    have hr : r.status ≠ HealthStatus.unhealthy := h (n, r) (List.mem_cons_self _ _)
    have hu : r.IsUnhealthy = false := by
      simp [HealthResult.IsUnhealthy]
      exact hr
    by_cases hdeg : r.IsDegraded = true
    · simp [Strategies.allHealthyLoop, hu, hdeg, List.any_cons]
    · have hrd : r.IsDegraded = false := by simpa using hdeg
      simp only [Strategies.allHealthyLoop, hu, hrd, Bool.false_eq_true, if_false]
      rw [ih (fun p hp => h p (List.mem_cons_of_mem _ hp))]
      simp only [List.any_cons, hrd, Bool.false_or]

/-- Claim C3 amended: the `health`-package `AllHealthyStrategy` (the default
installed by `NewManager`) satisfies the claim for every iteration order: any
unhealthy entry forces Unhealthy, no unhealthy plus some degraded gives
Degraded, all healthy gives Healthy. The `strategies`-package variant agrees
whenever no unhealthy entry is present, but it returns on the FIRST
non-healthy entry in iteration order, so a map whose iteration happens to
visit a Degraded entry first aggregates to Degraded even when an Unhealthy
entry follows. -/
theorem allHealthy_aggregate_semantics :
    (∀ l : List (String × HealthResult),
      (∃ p ∈ l, p.2.status = HealthStatus.unhealthy) →
        Health.AllHealthyStrategy.Aggregate l = HealthStatus.unhealthy) ∧
    (∀ l : List (String × HealthResult),
      (∀ p ∈ l, p.2.status ≠ HealthStatus.unhealthy) →
      (∃ p ∈ l, p.2.status = HealthStatus.degraded) →
        Health.AllHealthyStrategy.Aggregate l = HealthStatus.degraded) ∧
    (∀ l : List (String × HealthResult),
      (∀ p ∈ l, p.2.status = HealthStatus.healthy) →
        Health.AllHealthyStrategy.Aggregate l = HealthStatus.healthy) ∧
    (∀ l : List (String × HealthResult),
      (∀ p ∈ l, p.2.status ≠ HealthStatus.unhealthy) →
        Strategies.AllHealthyStrategy.Aggregate l = Health.AllHealthyStrategy.Aggregate l) ∧
    (∀ (name msg : String) (rest : List (String × HealthResult)),
      Strategies.AllHealthyStrategy.Aggregate ((name, NewDegradedResult msg) :: rest) =
        HealthStatus.degraded) := by
  refine ⟨?_, ?_, ?_, ?_, ?_⟩
  · intro l h
    have hne : l.isEmpty = false := by
      obtain ⟨p, hp, _⟩ := h
      cases l with
      | nil => simp at hp
      | cons hd tl => rfl
    simp only [Health.AllHealthyStrategy.Aggregate, hne, Bool.false_eq_true, if_false]
    exact health_allHealthyLoop_unhealthy l false h
  · intro l hnu hdeg
    have hne : l.isEmpty = false := by
      obtain ⟨p, hp, _⟩ := hdeg
      cases l with
      | nil => simp at hp
      | cons hd tl => rfl
    have hany : (l.any fun p => p.2.IsDegraded) = true := by
      rw [List.any_eq_true]
      obtain ⟨p, hp, hs⟩ := hdeg
      exact ⟨p, hp, by simp [HealthResult.IsDegraded, hs]⟩
    simp only [Health.AllHealthyStrategy.Aggregate, hne, Bool.false_eq_true, if_false]
    rw [health_allHealthyLoop_no_unhealthy l false hnu]
    simp [hany]
  · intro l h
    cases hl : l.isEmpty with
    | true => simp [Health.AllHealthyStrategy.Aggregate, hl]
    | false =>
      have hnu : ∀ p ∈ l, p.2.status ≠ HealthStatus.unhealthy := by
        intro p hp
        rw [h p hp]
        intro hcontra
        exact HealthStatus.noConfusion hcontra
      have hany : (l.any fun p => p.2.IsDegraded) = false := by
        rw [List.any_eq_false]
        intro p hp
        simp [HealthResult.IsDegraded, h p hp]
      simp only [Health.AllHealthyStrategy.Aggregate, hl, Bool.false_eq_true, if_false]
      rw [health_allHealthyLoop_no_unhealthy l false hnu]
      simp [hany]
  · intro l hnu
    cases hl : l.isEmpty with
    | true =>
      simp [Strategies.AllHealthyStrategy.Aggregate, Health.AllHealthyStrategy.Aggregate, hl]
    | false =>
      simp only [Strategies.AllHealthyStrategy.Aggregate, Health.AllHealthyStrategy.Aggregate,
        hl, Bool.false_eq_true, if_false]
      rw [strategies_allHealthyLoop_no_unhealthy l hnu,
        health_allHealthyLoop_no_unhealthy l false hnu]
      simp only [Bool.false_or]
  · intro name msg rest
    simp [Strategies.AllHealthyStrategy.Aggregate, Strategies.allHealthyLoop,
      NewDegradedResult, HealthResult.IsUnhealthy, HealthResult.IsDegraded]

/-- Witness for the amended C3 theorem: one unhealthy entry aggregates to
Unhealthy under the default strategy. -/
theorem allHealthy_semantics_witness :
    Health.AllHealthyStrategy.Aggregate [("a", NewUnhealthyResult "down")] =
      HealthStatus.unhealthy :=
  allHealthy_aggregate_semantics.1 [("a", NewUnhealthyResult "down")] (by decide)

/-- The three counters of `MajorityHealthyStrategy.Aggregate` count exactly
the entries of each status. -/
theorem tallyStatuses_spec :
    ∀ l : List (String × HealthResult),
      (Strategies.tallyStatuses l).1 =
        l.countP (fun p => p.2.status == HealthStatus.healthy) ∧
      (Strategies.tallyStatuses l).2.1 =
        l.countP (fun p => p.2.status == HealthStatus.degraded) ∧
      (Strategies.tallyStatuses l).2.2 =
        l.countP (fun p => p.2.status == HealthStatus.unhealthy) := by
  intro l
  induction l with
  | nil => refine ⟨rfl, rfl, rfl⟩
  | cons hd tl ih =>
    obtain ⟨n, r⟩ := hd
    obtain ⟨ih1, ih2, ih3⟩ := ih
    cases hs : r.status <;>
      simp [Strategies.tallyStatuses, hs, List.countP_cons, ih1, ih2, ih3]

/-- `MajorityHealthyStrategy.Aggregate` on a non-empty list, characterised by
status counts. -/
theorem majority_aggregate_eq (l : List (String × HealthResult)) (hne : l ≠ []) :
    Strategies.MajorityHealthyStrategy.Aggregate l =
      (if l.countP (fun p => p.2.status == HealthStatus.unhealthy) ≥ l.length / 2 + 1
       then HealthStatus.unhealthy
       else if l.countP (fun p => p.2.status == HealthStatus.healthy) ≥ l.length / 2 + 1
       then HealthStatus.healthy
       else HealthStatus.degraded) := by
  obtain ⟨t1, t2, t3⟩ := tallyStatuses_spec l
  have he : l.isEmpty = false := by
    cases l with
    | nil => exact absurd rfl hne
    | cons hd tl => rfl
  simp only [Strategies.MajorityHealthyStrategy.Aggregate, he, Bool.false_eq_true, if_false]
  rw [t1, t3]

/-- Claim C8 (confirmed): with `majority = total/2 + 1`, an unhealthy count
reaching the majority aggregates to Unhealthy; otherwise a healthy count
reaching the majority aggregates to Healthy; otherwise — ties included — a
non-empty map aggregates to Degraded; the empty map aggregates to
Healthy. -/
theorem majorityHealthy_aggregate_matches_claim :
    Strategies.MajorityHealthyStrategy.Aggregate [] = HealthStatus.healthy ∧
    ∀ l : List (String × HealthResult),
      (l.countP (fun p => p.2.status == HealthStatus.unhealthy) ≥ l.length / 2 + 1 →
        Strategies.MajorityHealthyStrategy.Aggregate l = HealthStatus.unhealthy) ∧
      (l.countP (fun p => p.2.status == HealthStatus.unhealthy) < l.length / 2 + 1 →
        l.countP (fun p => p.2.status == HealthStatus.healthy) ≥ l.length / 2 + 1 →
        Strategies.MajorityHealthyStrategy.Aggregate l = HealthStatus.healthy) ∧
      (l ≠ [] →
        l.countP (fun p => p.2.status == HealthStatus.unhealthy) < l.length / 2 + 1 →
        l.countP (fun p => p.2.status == HealthStatus.healthy) < l.length / 2 + 1 →
        Strategies.MajorityHealthyStrategy.Aggregate l = HealthStatus.degraded) := by
  refine ⟨rfl, fun l => ⟨?_, ?_, ?_⟩⟩
  · intro hu
    have hne : l ≠ [] := by
      intro he
      subst he
      exact absurd hu (by decide)
    rw [majority_aggregate_eq l hne, if_pos hu]
  · intro hu hh
    have hne : l ≠ [] := by
      intro he
      subst he
      exact absurd hh (by decide)
    rw [majority_aggregate_eq l hne, if_neg (by omega), if_pos hh]
  · intro hne hu hh
    rw [majority_aggregate_eq l hne, if_neg (by omega), if_neg (by omega)]

/-- Witness for C8: two unhealthy out of three is a strict majority and
aggregates to Unhealthy. -/
theorem majorityHealthy_witness :
    Strategies.MajorityHealthyStrategy.Aggregate
      [("a", NewUnhealthyResult "x"), ("b", NewUnhealthyResult "y"),
        ("c", NewHealthyResult "z")] = HealthStatus.unhealthy :=
  ((majorityHealthy_aggregate_matches_claim.2
      [("a", NewUnhealthyResult "x"), ("b", NewUnhealthyResult "y"),
        ("c", NewHealthyResult "z")]).1) (by decide)

/-- The three flags of `WeightedStrategy.Aggregate` hold exactly when a
critical-unhealthy, important-unhealthy, or degraded entry exists. -/
theorem weightedFlags_spec (s : Strategies.WeightedStrategy) :
    ∀ l : List (String × HealthResult),
      ((Strategies.weightedFlags s l).1 = true ↔
        ∃ p ∈ l, p.2.status = HealthStatus.unhealthy ∧
          s.importanceOf p.1 = ComponentImportance.Critical) ∧
      ((Strategies.weightedFlags s l).2.1 = true ↔
        ∃ p ∈ l, p.2.status = HealthStatus.unhealthy ∧
          s.importanceOf p.1 = ComponentImportance.Important) ∧
      ((Strategies.weightedFlags s l).2.2 = true ↔
        ∃ p ∈ l, p.2.status = HealthStatus.degraded) := by
  intro l
  induction l with
  | nil => simp [Strategies.weightedFlags]
  | cons hd tl ih =>
    obtain ⟨n, r⟩ := hd
    obtain ⟨ih1, ih2, ih3⟩ := ih
    cases hs : r.status <;> cases hi : s.importanceOf n <;>
      simp [Strategies.weightedFlags, hs, hi, ih1, ih2, ih3]

/-- Claim C9 (confirmed): with absent names defaulting to Important, an
Unhealthy result on a Critical component forces overall Unhealthy; absent
that, an Unhealthy result on an Important component or a Degraded result
anywhere forces overall Degraded; and the overall status is Healthy exactly
when none of those three kinds of entries exists — so an Unhealthy result on
an Optional component alone leaves the overall status Healthy. -/
theorem weighted_aggregate_matches_claim :
    ∀ (s : Strategies.WeightedStrategy) (l : List (String × HealthResult)),
      ((∃ p ∈ l, p.2.status = HealthStatus.unhealthy ∧
          s.importanceOf p.1 = ComponentImportance.Critical) →
        s.Aggregate l = HealthStatus.unhealthy) ∧
      ((¬ ∃ p ∈ l, p.2.status = HealthStatus.unhealthy ∧
          s.importanceOf p.1 = ComponentImportance.Critical) →
        ((∃ p ∈ l, p.2.status = HealthStatus.unhealthy ∧
            s.importanceOf p.1 = ComponentImportance.Important) ∨
          (∃ p ∈ l, p.2.status = HealthStatus.degraded)) →
        s.Aggregate l = HealthStatus.degraded) ∧
      (s.Aggregate l = HealthStatus.healthy ↔
        (¬ ∃ p ∈ l, p.2.status = HealthStatus.unhealthy ∧
            s.importanceOf p.1 = ComponentImportance.Critical) ∧
        (¬ ∃ p ∈ l, p.2.status = HealthStatus.unhealthy ∧
            s.importanceOf p.1 = ComponentImportance.Important) ∧
        (¬ ∃ p ∈ l, p.2.status = HealthStatus.degraded)) := by
  intro s l
  obtain ⟨f1, f2, f3⟩ := weightedFlags_spec s l
  refine ⟨?_, ?_, ?_⟩
  · intro h
    have hne : l.isEmpty = false := by
      obtain ⟨p, hp, _⟩ := h
      cases l with
      | nil => simp at hp
      | cons hd tl => rfl
    have hf : (Strategies.weightedFlags s l).1 = true := f1.mpr h
    simp only [Strategies.WeightedStrategy.Aggregate, hne, Bool.false_eq_true, if_false, hf,
      if_true]
  · intro h1 h2
    have hne : l.isEmpty = false := by
      have hp : ∃ p, p ∈ l := by
        rcases h2 with ⟨p, hp, _⟩ | ⟨p, hp, _⟩ <;> exact ⟨p, hp⟩
      obtain ⟨p, hp⟩ := hp
      cases l with
      | nil => simp at hp
      | cons hd tl => rfl
    have hf1 : (Strategies.weightedFlags s l).1 = false :=
      Bool.eq_false_iff.mpr fun ht => h1 (f1.mp ht)
    simp only [Strategies.WeightedStrategy.Aggregate, hne, Bool.false_eq_true, if_false, hf1]
    rcases h2 with h2 | h2
    · simp only [f2.mpr h2, if_true]
    · cases h21 : (Strategies.weightedFlags s l).2.1 with
      | true => simp only [if_true]
      | false => simp only [Bool.false_eq_true, if_false, f3.mpr h2, if_true]
  · constructor
    · intro hh
      refine ⟨fun hc => ?_, fun hc => ?_, fun hc => ?_⟩
      · have hne : l.isEmpty = false := by
          obtain ⟨p, hp, _⟩ := hc
          cases l with
          | nil => simp at hp
          | cons hd tl => rfl
        rw [show Strategies.WeightedStrategy.Aggregate s l = HealthStatus.unhealthy by
          simp only [Strategies.WeightedStrategy.Aggregate, hne, Bool.false_eq_true, if_false,
            f1.mpr hc, if_true]] at hh
        exact HealthStatus.noConfusion hh
      · have hne : l.isEmpty = false := by
          obtain ⟨p, hp, _⟩ := hc
          cases l with
          | nil => simp at hp
          | cons hd tl => rfl
        simp only [Strategies.WeightedStrategy.Aggregate, hne, Bool.false_eq_true, if_false] at hh
        cases h1v : (Strategies.weightedFlags s l).1 with
        | true => rw [h1v] at hh; simp at hh
        | false =>
          rw [h1v, f2.mpr hc] at hh
          simp at hh
      · have hne : l.isEmpty = false := by
          obtain ⟨p, hp, _⟩ := hc
          cases l with
          | nil => simp at hp
          | cons hd tl => rfl
        simp only [Strategies.WeightedStrategy.Aggregate, hne, Bool.false_eq_true, if_false] at hh
        cases h1v : (Strategies.weightedFlags s l).1 with
        | true => rw [h1v] at hh; simp at hh
        | false =>
          rw [h1v] at hh
          cases h21 : (Strategies.weightedFlags s l).2.1 with
          | true => rw [h21] at hh; simp at hh
          | false => rw [h21, f3.mpr hc] at hh; simp at hh
    · rintro ⟨h1, h2, h3⟩
      cases hne : l.isEmpty with
      | true => simp only [Strategies.WeightedStrategy.Aggregate, hne, if_true]
      | false =>
        have hf1 : (Strategies.weightedFlags s l).1 = false :=
          Bool.eq_false_iff.mpr fun ht => h1 (f1.mp ht)
        have hf2 : (Strategies.weightedFlags s l).2.1 = false :=
          Bool.eq_false_iff.mpr fun ht => h2 (f2.mp ht)
        have hf3 : (Strategies.weightedFlags s l).2.2 = false :=
          Bool.eq_false_iff.mpr fun ht => h3 (f3.mp ht)
        simp only [Strategies.WeightedStrategy.Aggregate, hne, Bool.false_eq_true, if_false,
          hf1, hf2, hf3]

/-- Witness for C9: an Unhealthy result on a Critical component aggregates
to Unhealthy even though the other component is Healthy. -/
theorem weighted_matches_claim_witness :
    (Strategies.WeightedStrategy.mk [("db", ComponentImportance.Critical)]).Aggregate
      [("db", NewUnhealthyResult "down"), ("cache", NewHealthyResult "ok")] =
      HealthStatus.unhealthy :=
  (weighted_aggregate_matches_claim
      (Strategies.WeightedStrategy.mk [("db", ComponentImportance.Critical)])
      [("db", NewUnhealthyResult "down"), ("cache", NewHealthyResult "ok")]).1 (by decide)

/-- Claim C4 counterexample: a check function wrapped by the `health`
package's `NewCustomCheck` (not the `checks` package's containment wrapper)
propagates its panic out of `Check`; since `Manager.CheckAll` installs no
recover, the whole check run — and with it the Go process — crashes instead
of producing an Unhealthy result, refuting "the manager never panics as a
result of any checker's panic". -/
theorem manager_panics_on_uncontained_checker :
    Health.customCheckCheck (CheckFnBehavior.panics "boom") = CheckOutcome.panicked "boom" ∧
    runCheckers [("svc", Health.customCheckCheck (CheckFnBehavior.panics "boom"))] =
      CheckAllOutcome.crashed "boom" := by
  decide

/-- With only normally returning checkers, no panic value is found. -/
theorem firstPanicValue_none_of_all_normal :
    ∀ outcomes : List (String × CheckOutcome),
      (∀ p ∈ outcomes, ∃ r, p.2 = CheckOutcome.normal r) →
      firstPanicValue outcomes = none := by
  intro outcomes
  induction outcomes with
  | nil => intro _; rfl
  | cons hd tl ih =>
    intro h
    obtain ⟨n, o⟩ := hd
    obtain ⟨r, hr⟩ := h (n, o) (List.mem_cons_self _ _)
    have hr' : o = CheckOutcome.normal r := hr
    subst hr'
    exact ih fun p hp => h p (List.mem_cons_of_mem _ hp)

/-- With only normally returning checkers, no checker hangs. -/
theorem anyHung_false_of_all_normal :
    ∀ outcomes : List (String × CheckOutcome),
      (∀ p ∈ outcomes, ∃ r, p.2 = CheckOutcome.normal r) →
      anyHung outcomes = false := by
  intro outcomes h
  rw [anyHung, List.any_eq_false]
  intro p hp
  obtain ⟨r, hr⟩ := h p hp
  rw [hr]
  exact fun hc => Bool.noConfusion (show false = true from hc)

/-- Claim C4 amended: a check function wrapped by `checks.CustomCheck` is
contained — a panic yields Unhealthy with a "panic" detail key, and hanging
or finishing no earlier than the timeout yields Unhealthy with a "timeout"
detail key, without crashing the caller; `Manager.CheckAll` itself installs
no recovery, so it collects all results exactly when every registered
checker's `Check` returns normally, while a checker whose `Check` method
itself panics (for example one built with the `health` package's
`NewCustomCheck`) crashes the whole run. -/
theorem customCheck_containment :
    (∀ (c : CustomCheck) (value : String), c.checkFn = CheckFnBehavior.panics value →
      (c.Check).status = HealthStatus.unhealthy ∧
      hasDetailKey (c.Check).details "panic" = true) ∧
    (∀ c : CustomCheck, c.checkFn = CheckFnBehavior.hangs →
      (c.Check).status = HealthStatus.unhealthy ∧
      hasDetailKey (c.Check).details "timeout" = true) ∧
    (∀ (c : CustomCheck) (result : HealthResult) (elapsed : Nat),
      c.checkFn = CheckFnBehavior.returnsAfter result elapsed → c.timeout ≤ elapsed →
      (c.Check).status = HealthStatus.unhealthy ∧
      hasDetailKey (c.Check).details "timeout" = true) ∧
    (∀ outcomes : List (String × CheckOutcome),
      (∀ p ∈ outcomes, ∃ r, p.2 = CheckOutcome.normal r) →
      runCheckers outcomes = CheckAllOutcome.ok (normalResults outcomes)) ∧
    (∀ (name value : String) (rest : List (String × CheckOutcome)),
      runCheckers ((name, CheckOutcome.panicked value) :: rest) =
        CheckAllOutcome.crashed value) := by
  refine ⟨?_, ?_, ?_, ?_, ?_⟩
  · intro c value h
    simp [CustomCheck.Check, h, NewUnhealthyResult, HealthResult.WithDetails, setDetail,
      hasDetailKey]
  · intro c h
    simp [CustomCheck.Check, h, NewUnhealthyResult, HealthResult.WithDetails, setDetail,
      hasDetailKey]
  · intro c result elapsed h hle
    have hnlt : ¬ elapsed < c.timeout := by omega
    simp [CustomCheck.Check, h, hnlt, NewUnhealthyResult, HealthResult.WithDetails, setDetail,
      hasDetailKey]
  · intro outcomes h
    rw [runCheckers, firstPanicValue_none_of_all_normal outcomes h,
      anyHung_false_of_all_normal outcomes h]
    simp
  · intro name value rest
    rfl

/-- Witness for the amended C4 theorem: a panicking function under the
`checks.CustomCheck` wrapper yields an Unhealthy result. -/
theorem customCheck_containment_witness :
    ((Checks.NewCustomCheck "c" (CheckFnBehavior.panics "boom")).Check).status =
      HealthStatus.unhealthy :=
  (customCheck_containment.1 (Checks.NewCustomCheck "c" (CheckFnBehavior.panics "boom"))
    "boom" rfl).1

/-- `assocGet` after `assocUpd` at the written key returns the new value. -/
theorem assocGet_assocUpd_self {α : Type} :
    ∀ (l : List (String × α)) (k : String) (v : α),
      assocGet (assocUpd l k v) k = some v := by
  intro l k v
  induction l with
  | nil => simp [assocUpd, assocGet]
  | cons hd tl ih =>
    obtain ⟨k', v'⟩ := hd
    by_cases h : k' = k
    · subst h
      simp [assocUpd, assocGet]
    · simp only [assocUpd, h, if_false]
      simp only [assocGet, h, if_false]
      exact ih

/-- `assocGet` after `assocUpd` at any other key is unchanged. -/
theorem assocGet_assocUpd_other {α : Type} :
    ∀ (l : List (String × α)) (k n : String) (v : α), n ≠ k →
      assocGet (assocUpd l k v) n = assocGet l n := by
  intro l k n v hnk
  induction l with
  | nil =>
    simp only [assocUpd, assocGet]
    rw [if_neg fun h => hnk h.symm]
  | cons hd tl ih =>
    obtain ⟨k', v'⟩ := hd
    by_cases h : k' = k
    · subst h
      simp only [assocUpd, if_pos rfl]
      simp only [assocGet]
      rw [if_neg fun h => hnk h.symm, if_neg fun h => hnk h.symm]
    · simp only [assocUpd, h, if_false]
      simp only [assocGet]
      by_cases h2 : k' = n
      · rw [if_pos h2, if_pos h2]
      · rw [if_neg h2, if_neg h2]
        exact ih

/-- Claim C10 (confirmed): `RegisterChecker` only rewrites the checker map
at the new checker's name — the result cache, TTL and readiness flag are
untouched and other checker bindings are preserved — and therefore, when a
cache entry under that name passes the code's freshness test, a subsequent
`checkWithCache` still serves the previous checker's cached result and does
not invoke the replacement. -/
theorem registerChecker_frame :
    (∀ (m : Manager) (c : Checker),
      (m.RegisterChecker c).cache = m.cache ∧
      (m.RegisterChecker c).cacheTTL = m.cacheTTL ∧
      (m.RegisterChecker c).ready = m.ready ∧
      assocGet (m.RegisterChecker c).checkers c.name = some c ∧
      ∀ n : String, n ≠ c.name →
        assocGet (m.RegisterChecker c).checkers n = assocGet m.checkers n) ∧
    (∀ (m : Manager) (c : Checker) (now : Nat) (e : CacheEntry),
      assocGet m.cache c.name = some e → e.result.duration < m.cacheTTL →
      ((m.RegisterChecker c).checkWithCache now c.name c).1 = e.result ∧
      ((m.RegisterChecker c).checkWithCache now c.name c).2.2 = false) := by
  constructor
  · intro m c
    exact ⟨rfl, rfl, rfl, assocGet_assocUpd_self _ _ _,
      fun n hn => assocGet_assocUpd_other _ _ _ _ hn⟩
  · intro m c now e hget hfresh
    have hc : (m.RegisterChecker c).cache = m.cache := rfl
    have ht : (m.RegisterChecker c).cacheTTL = m.cacheTTL := rfl
    simp only [Manager.checkWithCache, hc, ht, hget]
    rw [if_pos hfresh]
    exact ⟨rfl, rfl⟩

/-- Witness for C10: registering a replacement checker under "db" leaves the
fresh cache entry in place, and the next `checkWithCache` call returns the
old checker's cached result. -/
theorem registerChecker_frame_witness :
    (((Manager.mk [("db", Checker.mk "db" (NewHealthyResult "old"))]
        [("db", CacheEntry.mk (NewHealthyResult "old") 0)] 5 true).RegisterChecker
        (Checker.mk "db" (NewUnhealthyResult "new"))).checkWithCache 1 "db"
        (Checker.mk "db" (NewUnhealthyResult "new"))).1 = NewHealthyResult "old" :=
  (registerChecker_frame.2
    (Manager.mk [("db", Checker.mk "db" (NewHealthyResult "old"))]
      [("db", CacheEntry.mk (NewHealthyResult "old") 0)] 5 true)
    (Checker.mk "db" (NewUnhealthyResult "new")) 1
    (CacheEntry.mk (NewHealthyResult "old") 0) (by decide) (by decide)).1

end FastApp
